import Mathlib

/-!
# SDN simulator dashboard: a shallow embedding of `static/app.js`

The page script keeps its state in module-level variables and in the DOM.
Here that state is one record, `Page`, and every function of the script is a
pure function on `Page`.  What the script reads from its environment is passed
in as an argument: the clock reading used by `addLog`, the parsed stream
message, and the outcome of the start request.

The model describes the page once the `load` handler has run, so both charts
exist and every element looked up by id at the top of the script is present.
-/

namespace SdnSimulador

/-! ## JavaScript numbers -/

/-- A JavaScript number: `NaN`, an infinity (`neg` tells its sign) or a finite
value.  The two zeros are not distinguished; the script never divides by a
zero that could be negative and never prints the sign of a zero. -/
inductive JSNum where
  | nan
  | inf (neg : Bool)
  | fin (q : ℚ)
deriving DecidableEq, Repr

namespace JSNum

/-- The exponent `e` with `2 ^ e ≤ |q| < 2 ^ (e + 1)`, for `q ≠ 0`. -/
def floorLog2 (q : ℚ) : ℤ :=
  let a : ℤ := Nat.log2 q.num.natAbs
  let b : ℤ := Nat.log2 q.den
  if (2 : ℚ) ^ (a - b) ≤ |q| then a - b else a - b - 1

/-- Spacing of the binary64 grid around `q`: 53 significant bits, and the
fixed spacing `2 ^ (-1074)` in the subnormal range. -/
def ulp (q : ℚ) : ℚ := (2 : ℚ) ^ (max (floorLog2 q) (-1022) - 52)

/-- Nearest integer, ties to the even one. -/
def roundHalfEven (x : ℚ) : ℤ :=
  let f := ⌊x⌋
  if x - f < 1 / 2 then f
  else if 1 / 2 < x - f then f + 1
  else if f % 2 = 0 then f else f + 1

/-- IEEE 754 binary64 rounding (round to nearest, ties to even) of an exact
result, overflowing to an infinity. -/
def toDouble (q : ℚ) : JSNum :=
  if q = 0 then fin 0
  else
    let r : ℚ := roundHalfEven (q / ulp q) * ulp q
    if (2 : ℚ) ^ (1024 : ℕ) ≤ |r| then inf (decide (q < 0)) else fin r

/-- The value is one a JavaScript engine can hold: a finite value lies on the
binary64 grid. -/
def isDouble : JSNum → Bool
  | fin q => decide (toDouble q = fin q)
  | _ => true

/-- The number is not `NaN` and is zero or more. -/
def nonNeg : JSNum → Bool
  | fin q => decide (0 ≤ q)
  | inf neg => !neg
  | nan => false

/-- The number is not `NaN` and is more than zero. -/
def pos : JSNum → Bool
  | fin q => decide (0 < q)
  | inf neg => !neg
  | nan => false

/-- The relational operator `a < b`; false as soon as an operand is `NaN`. -/
def lt : JSNum → JSNum → Bool
  | fin a, fin b => decide (a < b)
  | fin _, inf neg => !neg
  | inf neg, fin _ => neg
  | inf a, inf b => a && !b
  | _, _ => false

/-- The relational operator `a > b`. -/
def gt (a b : JSNum) : Bool := lt b a

/-- The operator `a * b`. -/
def mul : JSNum → JSNum → JSNum
  | fin a, fin b => toDouble (a * b)
  | fin a, inf s => if a = 0 then nan else inf (xor s (decide (a < 0)))
  | inf s, fin b => if b = 0 then nan else inf (xor s (decide (b < 0)))
  | inf s, inf t => inf (xor s t)
  | _, _ => nan

/-- The operator `a / b`. -/
def div : JSNum → JSNum → JSNum
  | fin a, fin b =>
      if b = 0 then (if a = 0 then nan else inf (decide (a < 0))) else toDouble (a / b)
  | fin _, inf _ => fin 0
  | inf s, fin b => inf (xor s (decide (b < 0)))
  | _, _ => nan

/-- Two-argument `Math.min`. -/
def min : JSNum → JSNum → JSNum
  | nan, _ => nan
  | _, nan => nan
  | a, b => if lt b a then b else a

/-- The function `Math.round`: the nearest integer, halves going up. -/
def round : JSNum → JSNum
  | fin q => fin (⌊q + 1 / 2⌋ : ℤ)
  | x => x

end JSNum

open JSNum

/-! ## `parseInt` -/

/-- White space and line terminators skipped at the start of a numeric string. -/
def isWhiteSpace (c : Char) : Bool :=
  c.toNat ∈ [0x9, 0xA, 0xB, 0xC, 0xD, 0x20, 0xA0, 0x1680, 0x2028, 0x2029,
    0x202F, 0x205F, 0x3000, 0xFEFF] || (0x2000 ≤ c.toNat && c.toNat ≤ 0x200A)

/-- Value of a digit character in radix `R`, if it is one. -/
def radixDigit (R : ℕ) (c : Char) : Option ℕ :=
  let v : Option ℕ :=
    if 48 ≤ c.toNat ∧ c.toNat ≤ 57 then some (c.toNat - 48)
    else if 97 ≤ c.toNat ∧ c.toNat ≤ 122 then some (c.toNat - 97 + 10)
    else if 65 ≤ c.toNat ∧ c.toNat ≤ 90 then some (c.toNat - 65 + 10)
    else none
  v.filter (fun d => decide (d < R))

/-- The integer read by `parseInt(s)` (no radix argument): leading white space
is skipped, a sign and a `0x` marker are honoured, the longest run of digits is
read and the rest of the string is ignored; `none` when there is no digit. -/
def parseIntZ (s : List Char) : Option ℤ :=
  let S := s.dropWhile isWhiteSpace
  let neg : Bool := S.head? = some '-'
  let S := match S with
    | '+' :: t => t
    | '-' :: t => t
    | _ => S
  let RS : ℕ × List Char := match S with
    | '0' :: 'x' :: t => (16, t)
    | '0' :: 'X' :: t => (16, t)
    | _ => (10, S)
  let Z := RS.2.takeWhile (fun c => (radixDigit RS.1 c).isSome)
  if Z = [] then none
  else
    let mathInt : ℕ := Z.foldl (fun acc c => acc * RS.1 + (radixDigit RS.1 c).getD 0) 0
    some (if neg then -(mathInt : ℤ) else mathInt)

/-- The global function `parseInt` applied to a string: `NaN` when no digit can
be read, otherwise the integer read, as a number. -/
def parseInt (s : String) : JSNum :=
  match parseIntZ s.toList with
  | none => nan
  | some z => toDouble z

/-! ## The page -/

/-- A piece of text produced by a template literal or by assigning a number to
`textContent`: the literal parts and the interpolated numbers, in order. -/
inductive Frag where
  | str (s : String)
  | num (n : JSNum)
  | localeNum (n : JSNum)
deriving DecidableEq, Repr

/-- The text of an element, as the sequence of its fragments. -/
abbrev Text := List Frag

/-- An element of the topology diagram: its `data-host` attribute and its
class list. -/
structure Element where
  dataHost : Option String
  classList : List String
deriving DecidableEq, Repr

/-- A child of `#eventLog`. -/
structure LogEntry where
  className : String
  textContent : Text
deriving DecidableEq, Repr

/-- An `EventSource` object created by the script. -/
structure EventSource where
  url : String
  closed : Bool
deriving DecidableEq, Repr

/-- A call of `fetch`; `duration` is the value serialised in the request body
`JSON.stringify({ duration })`. -/
structure FetchCall where
  url : String
  method : String
  duration : JSNum
deriving DecidableEq, Repr

/-- The statistics carried by a stream message. -/
structure Stats where
  total_packets : JSNum
  normal_packets : JSNum
  attack_packets : JSNum
  active_hosts : JSNum
  blocked_hosts : JSNum
  attacks_detected : JSNum
deriving DecidableEq, Repr

/-- A parsed stream message, `JSON.parse(event.data)`. -/
structure Snapshot where
  running : Bool
  duration : JSNum
  stats : Stats
deriving DecidableEq, Repr

/-- The button `#startBtn`. -/
structure Button where
  disabled : Bool
deriving DecidableEq, Repr

/-- The field `#duration`. -/
structure Input where
  value : String
deriving DecidableEq, Repr

/-- The label `#simStatus`. -/
structure Label where
  textContent : Text
  classList : List String
deriving DecidableEq, Repr

/-- The data of the first dataset of a chart, `chart.data.datasets[0].data`. -/
structure Chart where
  data : List JSNum
deriving DecidableEq, Repr

/-- Everything the script reads or writes.

* `eventSource` is the module variable of that name: the index in `sources` of
  the object it refers to, `none` for `null`.
* `sources` lists every `EventSource` constructed so far, oldest first.
* `fetches` lists every `fetch` call issued so far; `awaiting` counts those
  whose outcome has not been delivered yet.
* `totalPackets`, `activeHosts`, `blockedHosts`, `attacksDetected` and
  `progressText` are the `textContent` of the elements of those ids;
  `progressFill` is the value of `progressFill.style.width`.
* `eventLog` lists the children of `#eventLog`, first child first.
* `topology` lists, in document order, the elements of the page other than
  the ones looked up by id. -/
structure Page where
  eventSource : Option ℕ
  sources : List EventSource
  fetches : List FetchCall
  awaiting : ℕ
  trafficChart : Chart
  hostsChart : Chart
  startBtn : Button
  durationInput : Input
  simStatus : Label
  totalPackets : Text
  activeHosts : Text
  blockedHosts : Text
  attacksDetected : Text
  progressFill : Text
  progressText : Text
  eventLog : List LogEntry
  topology : List Element
deriving DecidableEq, Repr

/-- The method `classList.add(token)`. -/
def classListAdd (token : String) (l : List String) : List String :=
  if token ∈ l then l else l ++ [token]

/-- The method `classList.remove(token)`. -/
def classListRemove (token : String) (l : List String) : List String :=
  l.filter (fun c => c ≠ token)

/-! ## `addLog` -/

/-- The loop `while (eventLog.children.length > 50) removeChild(lastChild)`,
on the element children of `#eventLog`. -/
def evict (l : List LogEntry) : List LogEntry :=
  if 50 < l.length then evict l.dropLast else l
termination_by l.length
decreasing_by
  simp only [List.length_dropLast]
  omega

/-- The element built by `addLog`. -/
def logEntry (timestamp : String) (message : Text) (type : String) : LogEntry :=
  { className := "log-entry log-" ++ type
    textContent := [Frag.str "[", Frag.str timestamp, Frag.str "] "] ++ message }

/-- The function `addLog(message, type)`; `timestamp` is the value of
`new Date().toLocaleTimeString('es-ES')` at the call.  Every call in the
script passes `type`, so its default value is not modelled. -/
def addLog (timestamp : String) (message : Text) (type : String) (p : Page) : Page :=
  { p with eventLog := evict (logEntry timestamp message type :: p.eventLog) }

/-! ## `updateUI` and `updateTopology` -/

/-- The callback of the loop over `querySelectorAll('.host')`, with the
selection folded in: an element of class `host` loses the class `blocked`,
any other element is not visited. -/
def resetHost (host : Element) : Element :=
  if "host" ∈ host.classList then
    { host with classList := classListRemove "blocked" host.classList }
  else host

/-- The loop over `querySelectorAll('.host')`. -/
def resetHosts (t : List Element) : List Element :=
  t.map resetHost

/-- The call `h6.classList.add('blocked')`. -/
def markBlocked (h6 : Element) : Element :=
  { h6 with classList := classListAdd "blocked" h6.classList }

/-- The first element matching `[data-host="H6"]`, if there is one, gets the
class `blocked`. -/
def markH6 : List Element → List Element
  | [] => []
  | h :: t =>
      if h.dataHost = some "H6" then markBlocked h :: t
      else h :: markH6 t

/-- The function `updateTopology(data)`. -/
def updateTopology (data : Snapshot) (p : Page) : Page :=
  let p := { p with topology := resetHosts p.topology }
  if gt data.stats.blocked_hosts (fin 0) then
    { p with topology := markH6 p.topology }
  else p

/-- Whether a number followed by `%` is a width the style accepts: the number
is finite and not negative. -/
def validPercent : JSNum → Bool
  | fin q => decide (0 ≤ q)
  | _ => false

/-- The assignment of a number followed by `%` to `progressFill.style.width`:
a text that is not a valid width is dropped and the style keeps its value. -/
def setWidth (value : JSNum) (old : Text) : Text :=
  if validPercent value then [Frag.num value, Frag.str "%"] else old

/-- The value of `estimatedProgress` in `updateUI`. -/
def estimatedProgress (data : Snapshot) : JSNum :=
  JSNum.min (fin 95)
    (mul (div data.stats.total_packets (mul data.duration (fin 50))) (fin 100))

/-- The function `updateUI(data)`. -/
def updateUI (data : Snapshot) (p : Page) : Page :=
  let p := { p with
    totalPackets := [Frag.localeNum data.stats.total_packets]
    activeHosts := [Frag.num data.stats.active_hosts]
    blockedHosts := [Frag.num data.stats.blocked_hosts]
    attacksDetected := [Frag.num data.stats.attacks_detected] }
  let p := { p with
    trafficChart := { data := [data.stats.normal_packets, data.stats.attack_packets] } }
  let p := { p with
    hostsChart := { data := [data.stats.active_hosts, data.stats.blocked_hosts] } }
  let p :=
    if data.running then
      { p with simStatus :=
          { textContent := [Frag.str "En Ejecución"]
            classList := classListAdd "running" p.simStatus.classList } }
    else
      { p with simStatus :=
          { textContent := [Frag.str "Finalizada"]
            classList := classListRemove "running" p.simStatus.classList } }
  let p :=
    if data.running && gt data.duration (fin 0) then
      { p with
        progressFill := setWidth (estimatedProgress data) p.progressFill
        progressText := [Frag.num (round (estimatedProgress data)), Frag.str "%"] }
    else p
  updateTopology data p

/-! ## Starting a run -/

/-- The call `fetch('/api/simulate', ...)`: the request is issued and its
outcome is awaited. -/
def fetch (call : FetchCall) (p : Page) : Page :=
  { p with fetches := p.fetches ++ [call], awaiting := p.awaiting + 1 }

/-- The function `startSimulation()` up to its first `await`: everything it
does before the outcome of the request is known. -/
def startSimulation (timestamp : String) (p : Page) : Page :=
  let duration := parseInt p.durationInput.value
  if lt duration (fin 1) || gt duration (fin 300) then
    addLog timestamp [Frag.str "Duración inválida (1-300 segundos)"] "error" p
  else
    let p := { p with startBtn := { disabled := true } }
    let p := addLog timestamp
      [Frag.str "Iniciando simulación de ", Frag.num duration, Frag.str " segundos..."]
      "info" p
    fetch { url := "/api/simulate", method := "POST", duration := duration } p

/-- Close the object at index `i`. -/
def closeAt : ℕ → List EventSource → List EventSource
  | _, [] => []
  | 0, s :: t => { s with closed := true } :: t
  | i + 1, s :: t => s :: closeAt i t

/-- The call `eventSource.close()` on the module variable. -/
def closeEventSource (p : Page) : Page :=
  match p.eventSource with
  | some i => { p with sources := closeAt i p.sources }
  | none => p

/-- The function `startEventStream()`; the two handlers it installs are
`onmessage` and `onerror` below. -/
def startEventStream (p : Page) : Page :=
  let p := closeEventSource p
  { p with
    eventSource := some p.sources.length
    sources := p.sources ++ [{ url := "/api/stream", closed := false }] }

/-- How the start request ended: a JSON body with its `status` and `message`,
or an exception (network failure, unreadable body) with its message. -/
inductive StartOutcome where
  | response (status : String) (message : String)
  | failure (errorMessage : String)
deriving DecidableEq, Repr

/-- The rest of `startSimulation()`, run when the outcome of the request
arrives. -/
def startResponse (outcome : StartOutcome) (timestamp : String) (p : Page) : Page :=
  let p := { p with awaiting := p.awaiting - 1 }
  match outcome with
  | StartOutcome.response status message =>
      if status = "success" then
        startEventStream (addLog timestamp [Frag.str message] "success" p)
      else
        { addLog timestamp [Frag.str message] "error" p with startBtn := { disabled := false } }
  | StartOutcome.failure errorMessage =>
      { addLog timestamp [Frag.str "Error al iniciar simulación: ", Frag.str errorMessage]
          "error" p with startBtn := { disabled := false } }

/-! ## The stream handlers -/

/-- The handler `eventSource.onmessage`, applied to the parsed message; `t0`,
`t1`, `t2` are the clock readings of its `addLog` calls. -/
def onmessage (data : Snapshot) (t0 t1 t2 : String) (p : Page) : Page :=
  let p := updateUI data p
  if !data.running && gt data.stats.total_packets (fin 0) then
    let p := addLog t0 [Frag.str "Simulación completada"] "success" p
    let p := { p with progressFill := [Frag.str "100%"], progressText := [Frag.str "100%"] }
    let p := closeEventSource p
    let p := { p with startBtn := { disabled := false } }
    if gt data.stats.attacks_detected (fin 0) then
      let p := addLog t1
        [Frag.str "⚠️ Se detectaron ", Frag.num data.stats.attacks_detected, Frag.str " ataques"]
        "warning" p
      addLog t2
        [Frag.str "🚫 ", Frag.num data.stats.blocked_hosts, Frag.str " hosts bloqueados"]
        "warning" p
    else p
  else p

/-- The handler `eventSource.onerror`. -/
def onerror (p : Page) : Page :=
  { closeEventSource p with startBtn := { disabled := false } }

/-! ## The page as a transition system -/

/-- What can happen to the page. -/
inductive Event where
  | input (value : String)
  | click (timestamp : String)
  | enterKey (timestamp : String)
  | startOutcome (outcome : StartOutcome) (timestamp : String)
  | message (i : ℕ) (data : Snapshot) (t0 t1 t2 : String)
  | error (i : ℕ)
deriving DecidableEq, Repr

/-- The object at index `i` exists and has not been closed. -/
def isOpen (p : Page) (i : ℕ) : Bool :=
  match p.sources[i]? with
  | some s => !s.closed
  | none => false

/-- When an event can happen: a click needs the button enabled, an outcome
needs a request in flight, and a stream event is delivered only on an
object that is not closed. -/
def enabled (p : Page) : Event → Bool
  | Event.input _ => true
  | Event.click _ => !p.startBtn.disabled
  | Event.enterKey _ => true
  | Event.startOutcome _ _ => decide (0 < p.awaiting)
  | Event.message i _ _ _ _ => isOpen p i
  | Event.error i => isOpen p i

/-- The handler run by each event. -/
def fire (p : Page) : Event → Page
  | Event.input value => { p with durationInput := { value := value } }
  | Event.click timestamp => startSimulation timestamp p
  | Event.enterKey timestamp => startSimulation timestamp p
  | Event.startOutcome outcome timestamp => startResponse outcome timestamp p
  | Event.message _ data t0 t1 t2 => onmessage data t0 t1 t2 p
  | Event.error _ => onerror p

/-- The states the page can be in: it starts with no `EventSource` and no
request in flight, and then events happen one at a time. -/
inductive Reachable : Page → Prop where
  | init (p : Page) :
      p.eventSource = none → p.sources = [] → p.awaiting = 0 → Reachable p
  | step (p : Page) (e : Event) :
      Reachable p → enabled p e = true → Reachable (fire p e)

/-- Number of `EventSource` objects that are not closed. -/
def openCount (p : Page) : ℕ :=
  (p.sources.filter (fun s => !s.closed)).length

/-- The highlight set: for each element of the topology, whether it carries
the class `blocked`. -/
def highlight (p : Page) : List Bool :=
  p.topology.map (fun h => decide ("blocked" ∈ h.classList))

/-- The marks the reset loop never clears: for each element of the topology,
whether it carries the class `blocked` without being of class `host`. -/
def strayMarks (p : Page) : List Bool :=
  p.topology.map (fun h => !decide ("host" ∈ h.classList) && decide ("blocked" ∈ h.classList))

/-- The part of the topology that no rendering changes: for each element its
`data-host` attribute and whether it is of class `host`. -/
def markup (p : Page) : List (Option String × Bool) :=
  p.topology.map (fun h => (h.dataHost, decide ("host" ∈ h.classList)))

/-- A page used in the examples: nothing started, an empty log, charts at
zero, and a topology of two hosts. -/
def page0 : Page :=
  { eventSource := none
    sources := []
    fetches := []
    awaiting := 0
    trafficChart := { data := [fin 0, fin 0] }
    hostsChart := { data := [fin 0, fin 0] }
    startBtn := { disabled := false }
    durationInput := { value := "15" }
    simStatus := { textContent := [Frag.str "Inactiva"], classList := ["status"] }
    totalPackets := [Frag.str "0"]
    activeHosts := [Frag.str "0"]
    blockedHosts := [Frag.str "0"]
    attacksDetected := [Frag.str "0"]
    progressFill := [Frag.str "0%"]
    progressText := [Frag.str "0%"]
    eventLog := []
    topology :=
      [ { dataHost := some "H1", classList := ["host"] },
        { dataHost := some "H6", classList := ["host"] } ] }

/-- The page of the examples with the progress display as the message handler
leaves it at the end of a run. -/
def pageDone : Page :=
  { page0 with progressFill := [Frag.str "100%"], progressText := [Frag.str "100%"] }

/-- The page of the examples with another topology: the only element with
`data-host="H6"` is not of class `host`. -/
def pageLegend : Page :=
  { page0 with topology := [{ dataHost := some "H6", classList := ["legend"] }] }

/-- The page of the examples with a full log of fifty entries. -/
def pageFullLog : Page :=
  { page0 with eventLog := List.replicate 50 (logEntry "12:00:00" [Frag.str "x"] "info") }

/-- The page of the examples while a run is streaming: one `EventSource`,
open and held, and the start button disabled. -/
def pageStreaming : Page :=
  { page0 with
    eventSource := some 0
    sources := [{ url := "/api/stream", closed := false }]
    startBtn := { disabled := true } }

/-- A snapshot used in the examples. -/
def snap (running : Bool) (total blocked attacks : ℚ) : Snapshot :=
  { running := running
    duration := fin 10
    stats :=
      { total_packets := fin total
        normal_packets := fin total
        attack_packets := fin 0
        active_hosts := fin 6
        blocked_hosts := fin blocked
        attacks_detected := fin attacks } }

/-! # Theorems -/


/-! ## The event log -/

theorem evict_eq_take (l : List LogEntry) : evict l = l.take 50 := by
  generalize h : l.length = n
  induction n using Nat.strong_induction_on generalizing l with
  | _ n ih =>
    rw [evict]
    split
    · next hlen =>
      have hlt : l.dropLast.length < n := by
        simp only [List.length_dropLast]
        omega
      rw [ih _ hlt l.dropLast rfl, List.dropLast_eq_take, List.take_take]
      congr 1
      omega
    · next hlen =>
      exact (List.take_of_length_le (by omega)).symm

theorem addLog_eventLog (ts : String) (m : Text) (ty : String) (p : Page) :
    (addLog ts m ty p).eventLog = logEntry ts m ty :: p.eventLog.take 49 := by
  simp [addLog, evict_eq_take]

theorem take_append_take {α : Type} (n : ℕ) (a b : List α) :
    (a ++ b.take n).take n = (a ++ b).take n := by
  rw [List.take_append_eq_append_take, List.take_append_eq_append_take, List.take_take]
  congr 2
  omega

/-- The log after a series of `addLog` calls, given as (timestamp, message,
type) triples in call order. -/
theorem foldl_addLog_eventLog (calls : List (String × Text × String)) (p : Page)
    (hp : p.eventLog.length ≤ 50) :
    (calls.foldl (fun q c => addLog c.1 c.2.1 c.2.2 q) p).eventLog
      = ((calls.reverse.map (fun c => logEntry c.1 c.2.1 c.2.2)) ++ p.eventLog).take 50 := by
  induction calls generalizing p with
  | nil => simpa using (List.take_of_length_le hp).symm
  | cons c cs ih =>
    have hlen : (addLog c.1 c.2.1 c.2.2 p).eventLog.length ≤ 50 := by
      simp [addLog, evict_eq_take]
    rw [List.foldl_cons, ih _ hlen]
    simp only [addLog, evict_eq_take, List.reverse_cons, List.map_append, List.map_cons,
      List.map_nil, List.append_assoc, List.singleton_append]
    exact take_append_take 50 _ _


/-! ## Rendering -/

/-- The page after `updateUI`, field by field. -/
theorem updateUI_eq (data : Snapshot) (p : Page) :
    updateUI data p =
      { p with
        totalPackets := [Frag.localeNum data.stats.total_packets]
        activeHosts := [Frag.num data.stats.active_hosts]
        blockedHosts := [Frag.num data.stats.blocked_hosts]
        attacksDetected := [Frag.num data.stats.attacks_detected]
        trafficChart := { data := [data.stats.normal_packets, data.stats.attack_packets] }
        hostsChart := { data := [data.stats.active_hosts, data.stats.blocked_hosts] }
        simStatus :=
          if data.running then
            { textContent := [Frag.str "En Ejecución"]
              classList := classListAdd "running" p.simStatus.classList }
          else
            { textContent := [Frag.str "Finalizada"]
              classList := classListRemove "running" p.simStatus.classList }
        progressFill :=
          if data.running && gt data.duration (fin 0) then
            setWidth (estimatedProgress data) p.progressFill
          else p.progressFill
        progressText :=
          if data.running && gt data.duration (fin 0) then
            [Frag.num (round (estimatedProgress data)), Frag.str "%"]
          else p.progressText
        topology :=
          if gt data.stats.blocked_hosts (fin 0) then markH6 (resetHosts p.topology)
          else resetHosts p.topology } := by
  cases hr : data.running <;> cases hd : gt data.duration (fin 0) <;>
    cases hb : gt data.stats.blocked_hosts (fin 0) <;>
    simp [updateUI, updateTopology, hr, hd, hb]


theorem classListAdd_idem (tok : String) (l : List String) :
    classListAdd tok (classListAdd tok l) = classListAdd tok l := by
  unfold classListAdd
  by_cases h : tok ∈ l <;> simp [h]

theorem classListRemove_idem (tok : String) (l : List String) :
    classListRemove tok (classListRemove tok l) = classListRemove tok l := by
  simp [classListRemove, List.filter_filter]

theorem mem_classListRemove (c tok : String) (l : List String) :
    c ∈ classListRemove tok l ↔ c ∈ l ∧ c ≠ tok := by
  simp [classListRemove]

theorem mem_classListAdd (c tok : String) (l : List String) :
    c ∈ classListAdd tok l ↔ c ∈ l ∨ c = tok := by
  unfold classListAdd
  by_cases h : tok ∈ l
  · simp only [h, if_true]
    constructor
    · exact Or.inl
    · rintro (hc | rfl)
      · exact hc
      · exact h
  · simp [h]

theorem classListRemove_add (tok : String) (l : List String) :
    classListRemove tok (classListAdd tok l) = classListRemove tok l := by
  unfold classListAdd
  by_cases h : tok ∈ l
  · simp [h]
  · simp [h, classListRemove, List.filter_append]

theorem resetHost_dataHost (h : Element) : (resetHost h).dataHost = h.dataHost := by
  unfold resetHost
  split <;> rfl

theorem resetHost_isHost (h : Element) :
    "host" ∈ (resetHost h).classList ↔ "host" ∈ h.classList := by
  unfold resetHost
  split
  · next hh => simp [mem_classListRemove, hh]
  · rfl

theorem resetHost_idem (h : Element) : resetHost (resetHost h) = resetHost h := by
  by_cases hh : "host" ∈ h.classList
  · simp [resetHost, hh, mem_classListRemove, classListRemove_idem]
  · simp [resetHost, hh]

theorem resetHosts_idem (t : List Element) : resetHosts (resetHosts t) = resetHosts t := by
  simp [resetHosts, List.map_map, Function.comp_def, resetHost_idem]

theorem markBlocked_resetHost_idem (h : Element) :
    markBlocked (resetHost (markBlocked (resetHost h))) = markBlocked (resetHost h) := by
  by_cases hh : "host" ∈ h.classList
  · simp [resetHost, markBlocked, hh, mem_classListRemove, mem_classListAdd,
      classListRemove_add, classListRemove_idem]
  · simp [resetHost, markBlocked, hh, mem_classListAdd, classListAdd_idem]

/-- Rendering the topology a second time from the same snapshot changes
nothing when the snapshot reports blocked hosts. -/
theorem markH6_resetHosts_idem (t : List Element) :
    markH6 (resetHosts (markH6 (resetHosts t))) = markH6 (resetHosts t) := by
  induction t with
  | nil => rfl
  | cons h t ih =>
    simp only [resetHosts, List.map_cons] at ih ⊢
    by_cases h6 : h.dataHost = some "H6"
    · have e1 : (resetHost h).dataHost = some "H6" := by rw [resetHost_dataHost, h6]
      have e2 : (resetHost (markBlocked (resetHost h))).dataHost = some "H6" := by
        rw [resetHost_dataHost]
        exact e1
      have hidem := resetHosts_idem t
      simp only [resetHosts] at hidem
      simp only [markH6, e1, if_true, List.map_cons, e2, hidem, markBlocked_resetHost_idem]
    · have e1 : ¬ (resetHost h).dataHost = some "H6" := by rw [resetHost_dataHost]; exact h6
      have e2 : ¬ (resetHost (resetHost h)).dataHost = some "H6" := by
        rw [resetHost_idem]
        exact e1
      simp only [markH6, e1, if_false, List.map_cons, e2, ih, resetHost_idem]


theorem highlight_resetHost (h : Element) :
    decide ("blocked" ∈ (resetHost h).classList)
      = (!decide ("host" ∈ h.classList) && decide ("blocked" ∈ h.classList)) := by
  by_cases hh : "host" ∈ h.classList
  · simp [resetHost, hh, mem_classListRemove]
  · simp [resetHost, hh]

theorem highlight_markBlocked (h : Element) :
    decide ("blocked" ∈ (markBlocked h).classList) = true := by
  simp [markBlocked, mem_classListAdd]

theorem highlight_resetHosts (t : List Element) :
    (resetHosts t).map (fun h => decide ("blocked" ∈ h.classList))
      = t.map (fun h => !decide ("host" ∈ h.classList) && decide ("blocked" ∈ h.classList)) := by
  simp only [resetHosts, List.map_map, Function.comp_def, highlight_resetHost]

/-- After a render, which elements carry the class `blocked` depends only on
the markup of the topology and on the marks that the reset loop leaves. -/
theorem highlight_markH6_congr (t1 t2 : List Element)
    (h : t1.map (fun h => (h.dataHost, decide ("host" ∈ h.classList)))
      = t2.map (fun h => (h.dataHost, decide ("host" ∈ h.classList))))
    (hs : t1.map (fun h => !decide ("host" ∈ h.classList) && decide ("blocked" ∈ h.classList))
      = t2.map (fun h => !decide ("host" ∈ h.classList) && decide ("blocked" ∈ h.classList))) :
    (markH6 (resetHosts t1)).map (fun h => decide ("blocked" ∈ h.classList))
      = (markH6 (resetHosts t2)).map (fun h => decide ("blocked" ∈ h.classList)) := by
  induction t1 generalizing t2 with
  | nil =>
    cases t2 with
    | nil => rfl
    | cons b t2 => simp at h
  | cons a t1 ih =>
    cases t2 with
    | nil => simp at h
    | cons b t2 =>
      simp only [List.map_cons, List.cons.injEq, Prod.mk.injEq] at h hs
      obtain ⟨⟨hd, _⟩, ht⟩ := h
      obtain ⟨hsa, hst⟩ := hs
      by_cases h6 : a.dataHost = some "H6"
      · have h6b : b.dataHost = some "H6" := hd ▸ h6
        have ea : (resetHost a).dataHost = some "H6" := by rw [resetHost_dataHost, h6]
        have eb : (resetHost b).dataHost = some "H6" := by rw [resetHost_dataHost, h6b]
        have ra := highlight_resetHosts t1
        have rb := highlight_resetHosts t2
        simp only [resetHosts] at ra rb
        simp only [resetHosts, List.map_cons, markH6, ea, eb, if_true,
          highlight_markBlocked, ra, rb, hst]
      · have h6b : ¬ b.dataHost = some "H6" := hd ▸ h6
        have ea : ¬ (resetHost a).dataHost = some "H6" := by rw [resetHost_dataHost]; exact h6
        have eb : ¬ (resetHost b).dataHost = some "H6" := by rw [resetHost_dataHost]; exact h6b
        have := ih t2 ht hst
        simp only [resetHosts] at this
        simp only [resetHosts, List.map_cons, markH6, ea, eb, if_false,
          highlight_resetHost, this, hsa]

theorem highlight_updateUI_congr (s : Snapshot) (p1 p2 : Page)
    (hm : markup p1 = markup p2) (hs : strayMarks p1 = strayMarks p2) :
    highlight (updateUI s p1) = highlight (updateUI s p2) := by
  simp only [highlight, updateUI_eq]
  split
  · exact highlight_markH6_congr _ _ hm hs
  · rw [highlight_resetHosts, highlight_resetHosts]
    exact hs

theorem setWidth_idem (v : JSNum) (old : Text) :
    setWidth v (setWidth v old) = setWidth v old := by
  unfold setWidth
  split <;> rfl

/-- C10. Rendering is idempotent: rendering a snapshot on a page that was just
rendered from the same snapshot leaves every field of the page as it is
(counters, both chart datasets, status label, progress, topology). -/
theorem updateUI_idempotent (s : Snapshot) (D : Page) :
    updateUI s (updateUI s D) = updateUI s D := by
  rw [updateUI_eq s (updateUI s D), updateUI_eq s D]
  cases hr : s.running <;> cases hd : gt s.duration (fin 0) <;>
    cases hb : gt s.stats.blocked_hosts (fin 0) <;>
    simp [classListAdd_idem, classListRemove_idem, resetHosts_idem, markH6_resetHosts_idem,
      setWidth_idem]

/-- C9. After rendering a non-empty sequence of snapshots in order, from any
page, the traffic chart holds the normal and attack packet counts of the last
snapshot and the hosts chart holds its active and blocked host counts. -/
theorem charts_show_last_snapshot (ss : List Snapshot) (p : Page) (h : ss ≠ []) :
    (ss.foldl (fun q s => updateUI s q) p).trafficChart.data
      = [(ss.getLast h).stats.normal_packets, (ss.getLast h).stats.attack_packets]
    ∧ (ss.foldl (fun q s => updateUI s q) p).hostsChart.data
      = [(ss.getLast h).stats.active_hosts, (ss.getLast h).stats.blocked_hosts] := by
  have hsplit : ss = ss.dropLast ++ [ss.getLast h] := (List.dropLast_append_getLast h).symm
  generalize ss.getLast h = last at hsplit ⊢
  rw [hsplit, List.foldl_append]
  simp [updateUI_eq]

/-- Example for C9: two snapshots rendered on the example page. -/
theorem charts_show_last_snapshot_witness :
    [snap true 10 0 0, snap false 500 2 3] ≠ []
    ∧ (([snap true 10 0 0, snap false 500 2 3].foldl (fun q s => updateUI s q) page0).trafficChart.data
        = [fin 500, fin 0]
      ∧ ([snap true 10 0 0, snap false 500 2 3].foldl (fun q s => updateUI s q) page0).hostsChart.data
        = [fin 6, fin 2]) :=
  ⟨by decide, charts_show_last_snapshot [snap true 10 0 0, snap false 500 2 3] page0 (by decide)⟩


/-- C1. On a log of at most 50 entries, `addLog` leaves `min (n + 1) 50`
entries: the new entry at index 0, carrying the given severity and message,
followed by the previous entries in their previous order, of which only the
oldest is dropped and only when the log was full.  Sixty calls on an empty log
leave exactly 50 entries, those of the 50 most recent calls, newest first. -/
theorem addLog_cap (ts : String) (m : Text) (ty : String) (p : Page)
    (hn : p.eventLog.length ≤ 50) :
    (addLog ts m ty p).eventLog.length = min (p.eventLog.length + 1) 50
    ∧ (addLog ts m ty p).eventLog[0]? = some (logEntry ts m ty)
    ∧ (logEntry ts m ty).className = "log-entry log-" ++ ty
    ∧ (addLog ts m ty p).eventLog.tail = p.eventLog.take 49
    ∧ (p.eventLog.length < 50 → (addLog ts m ty p).eventLog.tail = p.eventLog)
    ∧ (p.eventLog.length = 50 → (addLog ts m ty p).eventLog.tail = p.eventLog.dropLast)
    ∧ ∀ (q : Page) (calls : List (String × Text × String)),
        q.eventLog = [] → calls.length = 60 →
        (calls.foldl (fun r c => addLog c.1 c.2.1 c.2.2 r) q).eventLog.length = 50
        ∧ (calls.foldl (fun r c => addLog c.1 c.2.1 c.2.2 r) q).eventLog
            = ((calls.drop 10).reverse).map (fun c => logEntry c.1 c.2.1 c.2.2) := by
  refine ⟨?_, ?_, rfl, ?_, ?_, ?_, ?_⟩
  · rw [addLog_eventLog]
    simp only [List.length_cons, List.length_take]
    omega
  · rw [addLog_eventLog]
    simp
  · rw [addLog_eventLog]
    rfl
  · intro h
    rw [addLog_eventLog]
    exact List.take_of_length_le (by omega)
  · intro h
    rw [addLog_eventLog, List.dropLast_eq_take, h]
    rfl
  · intro q calls hq hc
    have hlog := foldl_addLog_eventLog calls q (by simp [hq])
    have hrev : calls.reverse.take 50 = (calls.drop 10).reverse := by
      rw [List.take_reverse, hc]
    have heq : (calls.foldl (fun r c => addLog c.1 c.2.1 c.2.2 r) q).eventLog
        = ((calls.drop 10).reverse).map (fun c => logEntry c.1 c.2.1 c.2.2) := by
      rw [hlog, hq, List.append_nil, ← List.map_take, hrev]
    refine ⟨?_, heq⟩
    rw [heq]
    simp [hc]

/-- Example for C1: one more entry on a full log. -/
theorem addLog_cap_witness :
    pageFullLog.eventLog.length ≤ 50
    ∧ (addLog "12:00:01" [Frag.str "y"] "error" pageFullLog).eventLog.length = 50
    ∧ (addLog "12:00:01" [Frag.str "y"] "error" pageFullLog).eventLog[0]?
        = some (logEntry "12:00:01" [Frag.str "y"] "error")
    ∧ (addLog "12:00:01" [Frag.str "y"] "error" pageFullLog).eventLog.tail
        = pageFullLog.eventLog.dropLast :=
  ⟨by decide,
    (addLog_cap "12:00:01" [Frag.str "y"] "error" pageFullLog (by decide)).1,
    (addLog_cap "12:00:01" [Frag.str "y"] "error" pageFullLog (by decide)).2.1,
    (addLog_cap "12:00:01" [Frag.str "y"] "error" pageFullLog (by decide)).2.2.2.2.2.1
      (by decide)⟩


/-! ## Arithmetic -/

theorem JSNum.ulp_pos (q : ℚ) : 0 < ulp q := by
  unfold ulp
  positivity

theorem JSNum.ulp_ge (q : ℚ) : (2 : ℚ) ^ (-1074 : ℤ) ≤ ulp q := by
  unfold ulp
  apply zpow_le_zpow_right₀ (by norm_num)
  have := le_max_right (floorLog2 q) (-1022)
  omega

theorem JSNum.floorLog2_le (q : ℚ) (hq : q ≠ 0) : (2 : ℚ) ^ floorLog2 q ≤ |q| := by
  unfold floorLog2
  simp only
  split
  · next h => exact h
  · next h =>
    have hnum : q.num.natAbs ≠ 0 := by
      simpa using hq
    have h1 : 2 ^ Nat.log2 q.num.natAbs ≤ q.num.natAbs := Nat.log2_self_le hnum
    have h2 : q.den < 2 ^ (Nat.log2 q.den + 1) := Nat.lt_log2_self
    have habs : |q| = (q.num.natAbs : ℚ) / (q.den : ℚ) := by
      conv_lhs => rw [← Rat.num_div_den q]
      rw [abs_div, Nat.abs_cast]
      congr 1
      rw [Nat.cast_natAbs, Int.cast_abs]
    have hden : (0 : ℚ) < q.den := by exact_mod_cast q.den_pos
    rw [habs, le_div_iff₀ hden]
    have h1q : (2 : ℚ) ^ (Nat.log2 q.num.natAbs) ≤ (q.num.natAbs : ℚ) := by exact_mod_cast h1
    have h2q : (q.den : ℚ) ≤ (2 : ℚ) ^ (Nat.log2 q.den + 1) := by exact_mod_cast h2.le
    calc (2 : ℚ) ^ ((Nat.log2 q.num.natAbs : ℤ) - (Nat.log2 q.den : ℤ) - 1) * (q.den : ℚ)
        ≤ (2 : ℚ) ^ ((Nat.log2 q.num.natAbs : ℤ) - (Nat.log2 q.den : ℤ) - 1)
            * (2 : ℚ) ^ (Nat.log2 q.den + 1) := by
          apply mul_le_mul_of_nonneg_left h2q
          positivity
      _ = (2 : ℚ) ^ (Nat.log2 q.num.natAbs) := by
          rw [← zpow_natCast, ← zpow_natCast, ← zpow_add₀ (by norm_num)]
          congr 1
          push_cast
          ring
      _ ≤ (q.num.natAbs : ℚ) := h1q

theorem JSNum.ulp_le (q : ℚ) (hq : (2 : ℚ) ^ (-1074 : ℤ) ≤ |q|) : ulp q ≤ |q| := by
  have hq0 : q ≠ 0 := by
    intro h
    rw [h, abs_zero] at hq
    have : (0 : ℚ) < (2 : ℚ) ^ (-1074 : ℤ) := by positivity
    linarith
  unfold ulp
  rcases le_total (floorLog2 q) (-1022) with h | h
  · rw [max_eq_right h]
    exact hq
  · rw [max_eq_left h]
    calc (2 : ℚ) ^ (floorLog2 q - 52) ≤ (2 : ℚ) ^ floorLog2 q :=
          zpow_le_zpow_right₀ (by norm_num) (by omega)
      _ ≤ |q| := floorLog2_le q hq0

theorem JSNum.roundHalfEven_ge_floor (x : ℚ) : ⌊x⌋ ≤ roundHalfEven x := by
  unfold roundHalfEven
  simp only
  split
  · exact le_refl _
  · split
    · omega
    · split <;> omega

theorem JSNum.roundHalfEven_nonneg (x : ℚ) (hx : 0 ≤ x) : 0 ≤ roundHalfEven x :=
  le_trans (Int.floor_nonneg.2 hx) (roundHalfEven_ge_floor x)

theorem JSNum.roundHalfEven_pos (x : ℚ) (hx : 1 ≤ x) : 1 ≤ roundHalfEven x :=
  le_trans (Int.le_floor.2 (by exact_mod_cast hx)) (roundHalfEven_ge_floor x)

theorem JSNum.toDouble_nonneg (q : ℚ) (hq : 0 ≤ q) : nonNeg (toDouble q) = true := by
  unfold toDouble
  split
  · simp [nonNeg]
  · simp only
    split
    · simp [nonNeg, hq]
    · simp only [nonNeg, decide_eq_true_eq]
      have h1 : 0 ≤ roundHalfEven (q / ulp q) :=
        roundHalfEven_nonneg _ (div_nonneg hq (ulp_pos q).le)
      have h2 : (0 : ℚ) ≤ (roundHalfEven (q / ulp q) : ℚ) := by exact_mod_cast h1
      exact mul_nonneg h2 (ulp_pos q).le

theorem JSNum.toDouble_pos (q : ℚ) (hq : (2 : ℚ) ^ (-1074 : ℤ) ≤ q) :
    pos (toDouble q) = true := by
  have hpos : 0 < q := lt_of_lt_of_le (by positivity) hq
  have hle : ulp q ≤ q := by
    have := ulp_le q (by rwa [abs_of_pos hpos])
    rwa [abs_of_pos hpos] at this
  unfold toDouble
  rw [if_neg hpos.ne.symm]
  simp only
  split
  · simp [pos, hpos.le]
  · simp only [pos, decide_eq_true_eq]
    have h1 : 1 ≤ roundHalfEven (q / ulp q) :=
      roundHalfEven_pos _ ((one_le_div (ulp_pos q)).2 hle)
    have h2 : (0 : ℚ) < (roundHalfEven (q / ulp q) : ℚ) := by exact_mod_cast h1
    exact mul_pos h2 (ulp_pos q)

/-- A positive number that a JavaScript engine can hold is at least the least
positive binary64 value. -/
theorem JSNum.isDouble_pos_ge (q : ℚ) (hd : isDouble (fin q) = true) (hq : 0 < q) :
    (2 : ℚ) ^ (-1074 : ℤ) ≤ q := by
  have hd2 : toDouble q = fin q := by simpa [isDouble] using hd
  unfold toDouble at hd2
  rw [if_neg hq.ne.symm] at hd2
  simp only at hd2
  split at hd2
  · cases hd2
  · have heq : (roundHalfEven (q / ulp q) : ℚ) * ulp q = q := by
      injection hd2
    have hk : 0 < roundHalfEven (q / ulp q) := by
      by_contra hneg
      have hk0 : (roundHalfEven (q / ulp q) : ℚ) ≤ 0 := by
        exact_mod_cast (not_lt.1 hneg)
      have : (roundHalfEven (q / ulp q) : ℚ) * ulp q ≤ 0 :=
        mul_nonpos_of_nonpos_of_nonneg hk0 (ulp_pos q).le
      linarith
    have hk1 : (1 : ℚ) ≤ (roundHalfEven (q / ulp q) : ℚ) := by exact_mod_cast hk
    calc (2 : ℚ) ^ (-1074 : ℤ) ≤ ulp q := ulp_ge q
      _ = 1 * ulp q := (one_mul _).symm
      _ ≤ (roundHalfEven (q / ulp q) : ℚ) * ulp q :=
          mul_le_mul_of_nonneg_right hk1 (ulp_pos q).le
      _ = q := heq


theorem JSNum.lt_floorLog2_succ (q : ℚ) : |q| < (2 : ℚ) ^ (floorLog2 q + 1) := by
  unfold floorLog2
  simp only
  split
  · next h =>
    have h1 : q.num.natAbs < 2 ^ (Nat.log2 q.num.natAbs + 1) := Nat.lt_log2_self
    have h2 : 2 ^ Nat.log2 q.den ≤ q.den := Nat.log2_self_le q.den_nz
    have habs : |q| = (q.num.natAbs : ℚ) / (q.den : ℚ) := by
      conv_lhs => rw [← Rat.num_div_den q]
      rw [abs_div, Nat.abs_cast]
      congr 1
      rw [Nat.cast_natAbs, Int.cast_abs]
    have hden : (0 : ℚ) < q.den := by exact_mod_cast q.den_pos
    rw [habs, div_lt_iff₀ hden]
    have h1q : (q.num.natAbs : ℚ) < (2 : ℚ) ^ (Nat.log2 q.num.natAbs + 1) := by
      exact_mod_cast h1
    have h2q : (2 : ℚ) ^ (Nat.log2 q.den) ≤ (q.den : ℚ) := by exact_mod_cast h2
    calc (q.num.natAbs : ℚ) < (2 : ℚ) ^ (Nat.log2 q.num.natAbs + 1) := h1q
      _ = (2 : ℚ) ^ ((Nat.log2 q.num.natAbs : ℤ) - (Nat.log2 q.den : ℤ) + 1)
            * (2 : ℚ) ^ (Nat.log2 q.den) := by
          rw [← zpow_natCast, ← zpow_natCast, ← zpow_add₀ (by norm_num)]
          congr 1
          push_cast
          ring
      _ ≤ (2 : ℚ) ^ ((Nat.log2 q.num.natAbs : ℤ) - (Nat.log2 q.den : ℤ) + 1) * (q.den : ℚ) := by
          apply mul_le_mul_of_nonneg_left h2q
          positivity
  · next h =>
    have := not_le.1 h
    simpa using this

theorem JSNum.roundHalfEven_near (x : ℚ) : |(roundHalfEven x : ℚ) - x| ≤ 1 / 2 := by
  have hfl := Int.floor_le x
  have hlt := Int.lt_floor_add_one x
  unfold roundHalfEven
  simp only
  split
  · next h =>
    rw [abs_le]
    constructor <;> linarith
  · next h =>
    have h' := not_lt.1 h
    split
    · next h2 =>
      rw [abs_le]
      push_cast
      constructor <;> linarith
    · next h2 =>
      have h2' := not_lt.1 h2
      have hhalf : x - ⌊x⌋ = 1 / 2 := le_antisymm h2' h'
      split
      · rw [abs_le]
        constructor <;> linarith
      · rw [abs_le]
        push_cast
        constructor <;> linarith

/-- A finite result of the rounding is within half a grid step of the exact
value. -/
theorem JSNum.toDouble_near (q r : ℚ) (h : toDouble q = fin r) : |r - q| ≤ ulp q / 2 := by
  unfold toDouble at h
  split at h
  · next h0 =>
    injection h with h
    rw [← h, h0, sub_zero, abs_zero]
    exact (div_pos (ulp_pos 0) (by norm_num)).le
  · simp only at h
    split at h
    · cases h
    · injection h with h
      have hu := ulp_pos q
      have hnear := roundHalfEven_near (q / ulp q)
      have heq : r - q = ((roundHalfEven (q / ulp q) : ℚ) - q / ulp q) * ulp q := by
        rw [← h]
        field_simp
      rw [heq, abs_mul, abs_of_pos hu]
      calc |(roundHalfEven (q / ulp q) : ℚ) - q / ulp q| * ulp q ≤ 1 / 2 * ulp q :=
            mul_le_mul_of_nonneg_right hnear hu.le
        _ = ulp q / 2 := by ring


theorem JSNum.roundHalfEven_intCast (n : ℤ) : roundHalfEven (n : ℚ) = n := by
  unfold roundHalfEven
  simp

/-- Integers below `2 ^ 53` in absolute value are binary64 values. -/
theorem JSNum.toDouble_intCast (z : ℤ) (hz : |z| < 2 ^ 53) : toDouble (z : ℚ) = fin z := by
  by_cases h0 : z = 0
  · subst h0
    simp [toDouble]
  · have hq0 : (z : ℚ) ≠ 0 := by exact_mod_cast h0
    have habs : |(z : ℚ)| < (2 : ℚ) ^ (53 : ℤ) := by
      have : ((|z| : ℤ) : ℚ) < ((2 ^ 53 : ℤ) : ℚ) := by exact_mod_cast hz
      rw [Int.cast_abs] at this
      calc |(z : ℚ)| < ((2 ^ 53 : ℤ) : ℚ) := this
        _ = (2 : ℚ) ^ (53 : ℤ) := by norm_num
    have he : floorLog2 (z : ℚ) < 53 := by
      have := lt_of_le_of_lt (floorLog2_le (z : ℚ) hq0) habs
      exact (zpow_lt_zpow_iff_right₀ (by norm_num : (1 : ℚ) < 2)).1 this
    have hm : max (floorLog2 (z : ℚ)) (-1022) ≤ 52 := max_le (by omega) (by norm_num)
    obtain ⟨k, hk⟩ : ∃ k : ℕ, max (floorLog2 (z : ℚ)) (-1022) - 52 = -(k : ℤ) :=
      ⟨(52 - max (floorLog2 (z : ℚ)) (-1022)).toNat, by omega⟩
    have hulp : ulp (z : ℚ) = ((2 : ℚ) ^ k)⁻¹ := by
      unfold ulp
      rw [hk, zpow_neg, zpow_natCast]
    have hpow : (0 : ℚ) < (2 : ℚ) ^ k := by positivity
    have hdiv : (z : ℚ) / ulp (z : ℚ) = ((z * 2 ^ k : ℤ) : ℚ) := by
      rw [hulp, div_inv_eq_mul]
      push_cast
      ring
    have hr : ((roundHalfEven ((z : ℚ) / ulp (z : ℚ)) : ℤ) : ℚ) * ulp (z : ℚ) = z := by
      rw [hdiv, roundHalfEven_intCast, hulp]
      push_cast
      field_simp
    unfold toDouble
    rw [if_neg hq0]
    simp only
    rw [hr, if_neg]
    have : (2 : ℚ) ^ (53 : ℤ) ≤ (2 : ℚ) ^ (1024 : ℕ) := by norm_num
    linarith

theorem JSNum.mul_fifty_pos (d : JSNum) (hd : gt d (fin 0) = true)
    (hdd : isDouble d = true) : pos (mul d (fin 50)) = true := by
  cases d with
  | nan => simp [gt, lt] at hd
  | inf neg =>
    have hneg : neg = false := by simpa [gt, lt] using hd
    subst hneg
    simp [mul, pos]
  | fin q =>
    have hq : 0 < q := by simpa [gt, lt] using hd
    have hge := isDouble_pos_ge q hdd hq
    show pos (toDouble (q * 50)) = true
    apply toDouble_pos
    linarith

theorem JSNum.div_nonneg_of_pos (q : ℚ) (hq : 0 ≤ q) (x : JSNum) (hx : pos x = true) :
    nonNeg (div (fin q) x) = true := by
  cases x with
  | nan => simp [pos] at hx
  | inf neg => simp [div, nonNeg]
  | fin r =>
    have hr : 0 < r := by simpa [pos] using hx
    show nonNeg (if r = 0 then _ else toDouble (q / r)) = true
    rw [if_neg hr.ne.symm]
    exact toDouble_nonneg _ (div_nonneg hq hr.le)

theorem JSNum.mul_hundred_nonneg (x : JSNum) (hx : nonNeg x = true) :
    nonNeg (mul x (fin 100)) = true := by
  cases x with
  | nan => simp [nonNeg] at hx
  | inf neg =>
    have hneg : neg = false := by simpa [nonNeg] using hx
    subst hneg
    simp [mul, nonNeg]
  | fin a =>
    have ha : 0 ≤ a := by simpa [nonNeg] using hx
    exact toDouble_nonneg _ (mul_nonneg ha (by norm_num))

theorem JSNum.min_ninetyfive (x : JSNum) (hx : nonNeg x = true) :
    ∃ e : ℚ, JSNum.min (fin 95) x = fin e ∧ 0 ≤ e ∧ e ≤ 95 := by
  cases x with
  | nan => simp [nonNeg] at hx
  | inf neg =>
    have hneg : neg = false := by simpa [nonNeg] using hx
    subst hneg
    exact ⟨95, by simp [JSNum.min, lt], by norm_num, le_refl _⟩
  | fin a =>
    have ha : 0 ≤ a := by simpa [nonNeg] using hx
    by_cases hlt : a < 95
    · exact ⟨a, by simp [JSNum.min, lt, hlt], ha, hlt.le⟩
    · exact ⟨95, by simp [JSNum.min, lt, hlt], by norm_num, le_refl _⟩

theorem estimatedProgress_range (data : Snapshot) (q : ℚ)
    (hd : gt data.duration (fin 0) = true) (hdd : isDouble data.duration = true)
    (htp : data.stats.total_packets = fin q) (hq : 0 ≤ q) :
    ∃ e : ℚ, estimatedProgress data = fin e ∧ 0 ≤ e ∧ e ≤ 95 := by
  unfold estimatedProgress
  rw [htp]
  exact min_ninetyfive _
    (mul_hundred_nonneg _ (div_nonneg_of_pos q hq _ (mul_fifty_pos _ hd hdd)))

/-- C7. For a snapshot with `running` true, a positive `duration` and a
non-negative `total_packets`, `updateUI` sets the progress bar to
`min(95, total_packets / (duration * 50) * 100)`, computed in binary64
arithmetic, and the progress text to that value rounded to the nearest integer
(halves up): the estimate lies between 0 and 95 and so does the integer shown,
which therefore is never 100. -/
theorem progress_estimate_capped (data : Snapshot) (p : Page) (q : ℚ)
    (hr : data.running = true) (hd : gt data.duration (fin 0) = true)
    (hdd : isDouble data.duration = true)
    (htp : data.stats.total_packets = fin q) (hq : 0 ≤ q) :
    (updateUI data p).progressFill
      = [Frag.num (JSNum.min (fin 95)
          (mul (div data.stats.total_packets (mul data.duration (fin 50))) (fin 100))),
         Frag.str "%"]
    ∧ (updateUI data p).progressText
      = [Frag.num (round (JSNum.min (fin 95)
          (mul (div data.stats.total_packets (mul data.duration (fin 50))) (fin 100)))),
         Frag.str "%"]
    ∧ ∃ (e : ℚ) (k : ℤ),
        JSNum.min (fin 95)
          (mul (div data.stats.total_packets (mul data.duration (fin 50))) (fin 100)) = fin e
        ∧ (updateUI data p).progressFill = [Frag.num (fin e), Frag.str "%"]
        ∧ (updateUI data p).progressText = [Frag.num (fin k), Frag.str "%"]
        ∧ 0 ≤ e ∧ e ≤ 95 ∧ 0 ≤ k ∧ k ≤ 95 ∧ k ≠ 100
        ∧ (k : ℚ) - 1 / 2 ≤ e ∧ e < (k : ℚ) + 1 / 2 := by
  obtain ⟨e, he, h0, h95⟩ := estimatedProgress_range data q hd hdd htp hq
  have hvalid : setWidth (estimatedProgress data) p.progressFill
      = [Frag.num (estimatedProgress data), Frag.str "%"] := by
    simp [setWidth, validPercent, he, h0]
  have hfill := (updateUI_eq data p ▸ rfl :
    (updateUI data p).progressFill =
      if data.running && gt data.duration (fin 0) then
        setWidth (estimatedProgress data) p.progressFill else p.progressFill)
  have htext := (updateUI_eq data p ▸ rfl :
    (updateUI data p).progressText =
      if data.running && gt data.duration (fin 0) then
        [Frag.num (round (estimatedProgress data)), Frag.str "%"] else p.progressText)
  simp only [hr, hd, Bool.and_self, if_true] at hfill htext
  rw [hvalid] at hfill
  refine ⟨hfill, htext, e, ⌊e + 1 / 2⌋, he, ?_, ?_, h0, h95, ?_, ?_, ?_, ?_, ?_⟩
  · rw [hfill, he]
  · rw [htext, he]
    rfl
  · exact Int.floor_nonneg.2 (by linarith)
  · have : ⌊e + 1 / 2⌋ < 96 := Int.floor_lt.2 (by push_cast; linarith)
    omega
  · have : ⌊e + 1 / 2⌋ < 96 := Int.floor_lt.2 (by push_cast; linarith)
    omega
  · have := Int.floor_le (e + 1 / 2)
    linarith
  · have := Int.lt_floor_add_one (e + 1 / 2)
    linarith


theorem JSNum.toDouble_neg (q : ℚ) (hq : q ≤ -(2 : ℚ) ^ (-1074 : ℤ)) :
    toDouble q = inf true ∨ ∃ r : ℚ, toDouble q = fin r ∧ r ≤ -(2 : ℚ) ^ (-1074 : ℤ) := by
  have htiny : (0 : ℚ) < (2 : ℚ) ^ (-1074 : ℤ) := by positivity
  have hneg : q < 0 := by linarith
  have hu := ulp_pos q
  have hle : ulp q ≤ -q := by
    have := ulp_le q (by rw [abs_of_neg hneg]; linarith)
    rwa [abs_of_neg hneg] at this
  have hx : q / ulp q ≤ -1 := by
    rw [div_le_iff₀ hu]
    linarith
  have hnear := roundHalfEven_near (q / ulp q)
  have hk : (roundHalfEven (q / ulp q) : ℚ) ≤ -1 / 2 := by
    have := (abs_le.1 hnear).2
    linarith
  have hk1 : roundHalfEven (q / ulp q) ≤ -1 := by
    have hlt : (roundHalfEven (q / ulp q) : ℚ) < 0 := by linarith
    have : roundHalfEven (q / ulp q) < 0 := by exact_mod_cast hlt
    omega
  have hk1q : (roundHalfEven (q / ulp q) : ℚ) ≤ -1 := by exact_mod_cast hk1
  unfold toDouble
  rw [if_neg hneg.ne]
  simp only
  split
  · left
    simp [hneg]
  · right
    refine ⟨_, rfl, ?_⟩
    calc (roundHalfEven (q / ulp q) : ℚ) * ulp q ≤ -1 * ulp q :=
          mul_le_mul_of_nonneg_right hk1q hu.le
      _ = -ulp q := by ring
      _ ≤ -(2 : ℚ) ^ (-1074 : ℤ) := neg_le_neg (ulp_ge q)

/-- The estimate for minus three packets into a run of ten seconds is
negative, so it is not a valid width. -/
theorem estimatedProgress_negative_example :
    validPercent (estimatedProgress (snap true (-3) 0 0)) = false := by
  have htiny : (2 : ℚ) ^ (-1074 : ℤ) ≤ 3 / 500 := by
    calc (2 : ℚ) ^ (-1074 : ℤ) ≤ (2 : ℚ) ^ (-8 : ℤ) :=
          zpow_le_zpow_right₀ (by norm_num) (by norm_num)
      _ ≤ 3 / 500 := by norm_num
  have hpos : (0 : ℚ) < (2 : ℚ) ^ (-1074 : ℤ) := by positivity
  have h500 : mul (fin 10) (fin 50) = fin 500 := by
    have := toDouble_intCast 500 (by norm_num)
    show toDouble (10 * 50) = fin 500
    norm_num at this ⊢
    exact this
  have hdiv : div (fin (-3)) (fin 500) = toDouble (-3 / 500) := by
    simp [div]
  have hest : estimatedProgress (snap true (-3) 0 0)
      = JSNum.min (fin 95) (mul (toDouble (-3 / 500)) (fin 100)) := by
    simp only [estimatedProgress, snap, h500, hdiv]
  rw [hest]
  rcases toDouble_neg (-3 / 500) (by linarith) with h1 | ⟨r1, h1, hr1⟩
  · rw [h1]
    simp [mul, JSNum.min, lt, validPercent]
  · rw [h1]
    show validPercent (JSNum.min (fin 95) (toDouble (r1 * 100))) = false
    rcases toDouble_neg (r1 * 100) (by linarith) with h2 | ⟨r2, h2, hr2⟩
    · rw [h2]
      simp [JSNum.min, lt, validPercent]
    · rw [h2]
      have hlt : r2 < 95 := by linarith
      have hneg : r2 < 0 := by linarith
      simp [JSNum.min, lt, validPercent, hlt, hneg]

/-- C5, as the claim states it, fails, in three ways.  A snapshot with
`running` false rendered on a fresh page and on a page showing 100% leaves two
different progress texts.  A running snapshot with a negative packet count
leaves two different bar widths, the negative width being dropped.  And on a
page whose `data-host="H6"` element is not of class `host`, a snapshot without
blocked hosts rendered on the fresh page and on the page left by a snapshot
with a blocked host leaves two different sets of elements marked `blocked`. -/
theorem updateUI_depends_on_prior :
    ((updateUI (snap false 0 0 0) page0).progressText = [Frag.str "0%"]
      ∧ (updateUI (snap false 0 0 0) pageDone).progressText = [Frag.str "100%"]
      ∧ (updateUI (snap false 0 0 0) page0).progressText
          ≠ (updateUI (snap false 0 0 0) pageDone).progressText)
    ∧ ((updateUI (snap true (-3) 0 0) page0).progressFill = [Frag.str "0%"]
      ∧ (updateUI (snap true (-3) 0 0) pageDone).progressFill = [Frag.str "100%"]
      ∧ (updateUI (snap true (-3) 0 0) page0).progressFill
          ≠ (updateUI (snap true (-3) 0 0) pageDone).progressFill)
    ∧ (markup pageLegend = markup (updateUI (snap false 0 1 0) pageLegend)
      ∧ highlight (updateUI (snap false 0 0 0) pageLegend) = [false]
      ∧ highlight (updateUI (snap false 0 0 0) (updateUI (snap false 0 1 0) pageLegend))
          = [true]
      ∧ highlight (updateUI (snap false 0 0 0) pageLegend)
          ≠ highlight (updateUI (snap false 0 0 0)
              (updateUI (snap false 0 1 0) pageLegend))) := by
  have hb1 : (updateUI (snap true (-3) 0 0) page0).progressFill = [Frag.str "0%"] := by
    rw [updateUI_eq]
    simp only [setWidth, estimatedProgress_negative_example]
    rfl
  have hb2 : (updateUI (snap true (-3) 0 0) pageDone).progressFill = [Frag.str "100%"] := by
    rw [updateUI_eq]
    simp only [setWidth, estimatedProgress_negative_example]
    rfl
  refine ⟨by decide, ⟨hb1, hb2, ?_⟩, by decide⟩
  rw [hb1, hb2]
  decide

/-- C5, amended. For every snapshot and every two prior pages, `updateUI`
yields the same counters and the same two chart datasets.  It yields the same
set of elements marked `blocked` when the two pages have the same topology
markup and the same `blocked` marks on elements that are not of class `host`.
When the snapshot has `running` true and a positive `duration`, it yields the
same progress text, and the same bar width provided the estimate is a valid
width, as it is whenever `total_packets` is finite and not negative; an
estimate that is not a valid width leaves the bar as it was.  When the guard
fails the progress text and the bar are left as they were. -/
theorem updateUI_rebuilds_display (s : Snapshot) (p1 p2 : Page) :
    ((updateUI s p1).totalPackets = (updateUI s p2).totalPackets
      ∧ (updateUI s p1).activeHosts = (updateUI s p2).activeHosts
      ∧ (updateUI s p1).blockedHosts = (updateUI s p2).blockedHosts
      ∧ (updateUI s p1).attacksDetected = (updateUI s p2).attacksDetected)
    ∧ (updateUI s p1).trafficChart = (updateUI s p2).trafficChart
    ∧ (updateUI s p1).hostsChart = (updateUI s p2).hostsChart
    ∧ (markup p1 = markup p2 → strayMarks p1 = strayMarks p2 →
        highlight (updateUI s p1) = highlight (updateUI s p2))
    ∧ (s.running = true → gt s.duration (fin 0) = true →
        (updateUI s p1).progressText = (updateUI s p2).progressText
        ∧ (validPercent (estimatedProgress s) = true →
            (updateUI s p1).progressFill = (updateUI s p2).progressFill)
        ∧ (validPercent (estimatedProgress s) = false →
            (updateUI s p1).progressFill = p1.progressFill)
        ∧ (∀ q : ℚ, s.stats.total_packets = fin q → 0 ≤ q → isDouble s.duration = true →
            (updateUI s p1).progressFill = (updateUI s p2).progressFill))
    ∧ ((s.running && gt s.duration (fin 0)) = false →
        (updateUI s p1).progressFill = p1.progressFill
        ∧ (updateUI s p1).progressText = p1.progressText) := by
  refine ⟨?_, ?_, ?_, highlight_updateUI_congr s p1 p2, ?_, ?_⟩
  · simp [updateUI_eq]
  · simp [updateUI_eq]
  · simp [updateUI_eq]
  · intro hr hd
    have hvalid : validPercent (estimatedProgress s) = true →
        (updateUI s p1).progressFill = (updateUI s p2).progressFill := by
      intro hv
      simp [updateUI_eq, hr, hd, setWidth, hv]
    refine ⟨?_, hvalid, ?_, ?_⟩
    · simp [updateUI_eq, hr, hd]
    · intro hv
      simp [updateUI_eq, hr, hd, setWidth, hv]
    · intro q htp hq hdd
      obtain ⟨e, he, h0, _⟩ := estimatedProgress_range s q hd hdd htp hq
      exact hvalid (by simp [he, validPercent, h0])
  · intro h
    simp [updateUI_eq, h]

/-- Example for C5 as amended: a running snapshot rendered on a fresh page and
on a page showing 100%, and a finished one leaving the 100% in place. -/
theorem updateUI_rebuilds_display_witness :
    markup page0 = markup pageDone
    ∧ strayMarks page0 = strayMarks pageDone
    ∧ (snap true 100 1 1).running = true
    ∧ gt (snap true 100 1 1).duration (fin 0) = true
    ∧ isDouble (snap true 100 1 1).duration = true
    ∧ highlight (updateUI (snap true 100 1 1) page0)
        = highlight (updateUI (snap true 100 1 1) pageDone)
    ∧ (updateUI (snap true 100 1 1) page0).progressText
        = (updateUI (snap true 100 1 1) pageDone).progressText
    ∧ (updateUI (snap true 100 1 1) page0).progressFill
        = (updateUI (snap true 100 1 1) pageDone).progressFill
    ∧ ((snap false 0 0 0).running && gt (snap false 0 0 0).duration (fin 0)) = false
    ∧ (updateUI (snap false 0 0 0) pageDone).progressText = pageDone.progressText := by
  have hdd : isDouble (snap true 100 1 1).duration = true := by
    have := toDouble_intCast 10 (by norm_num)
    simpa [snap, isDouble] using this
  exact ⟨by decide, by decide, by decide, by decide, hdd,
    (updateUI_rebuilds_display (snap true 100 1 1) page0 pageDone).2.2.2.1
      (by decide) (by decide),
    ((updateUI_rebuilds_display (snap true 100 1 1) page0 pageDone).2.2.2.2.1
      (by decide) (by decide)).1,
    ((updateUI_rebuilds_display (snap true 100 1 1) page0 pageDone).2.2.2.2.1
      (by decide) (by decide)).2.2.2 100 rfl (by norm_num) hdd,
    by decide,
    ((updateUI_rebuilds_display (snap false 0 0 0) pageDone page0).2.2.2.2.2 (by decide)).2⟩


/-! ## Starting a run -/

theorem parseInt_400 : parseInt "400" = fin 400 := by
  have h : parseIntZ "400".toList = some 400 := by decide
  have h2 := toDouble_intCast 400 (by norm_num)
  simp only [parseInt, h]
  simpa using h2

theorem parseInt_15 : parseInt "15" = fin 15 := by
  have h : parseIntZ "15".toList = some 15 := by decide
  have h2 := toDouble_intCast 15 (by norm_num)
  simp only [parseInt, h]
  simpa using h2

/-- C2. When the text of the duration field parses to an integer below 1 or
above 300, `startSimulation` does nothing but append one log entry, of
severity error: no request is issued, no `EventSource` is created or closed,
and the start button is left as it was. -/
theorem startSimulation_out_of_range (ts : String) (p : Page) (d : ℤ)
    (hparse : parseInt p.durationInput.value = fin d) (hd : d < 1 ∨ 300 < d) :
    startSimulation ts p
      = addLog ts [Frag.str "Duración inválida (1-300 segundos)"] "error" p
    ∧ (startSimulation ts p).fetches = p.fetches
    ∧ (startSimulation ts p).awaiting = p.awaiting
    ∧ (startSimulation ts p).eventLog
        = logEntry ts [Frag.str "Duración inválida (1-300 segundos)"] "error"
            :: p.eventLog.take 49
    ∧ (logEntry ts [Frag.str "Duración inválida (1-300 segundos)"] "error").className
        = "log-entry log-error"
    ∧ (startSimulation ts p).sources = p.sources
    ∧ (startSimulation ts p).eventSource = p.eventSource
    ∧ (startSimulation ts p).startBtn = p.startBtn := by
  have hguard : (lt (fin d) (fin 1) || gt (fin d) (fin 300)) = true := by
    rcases hd with h | h
    · have : ((d : ℚ) < 1) := by exact_mod_cast h
      simp [lt, this]
    · have : ((300 : ℚ) < d) := by exact_mod_cast h
      simp [gt, lt, this]
  have heq : startSimulation ts p
      = addLog ts [Frag.str "Duración inválida (1-300 segundos)"] "error" p := by
    unfold startSimulation
    simp only [hparse, hguard, if_true]
  refine ⟨heq, ?_, ?_, ?_, rfl, ?_, ?_, ?_⟩ <;> rw [heq]
  · rfl
  · rfl
  · exact addLog_eventLog _ _ _ _
  · rfl
  · rfl
  · rfl

/-- Example for C2: the duration field holds 400. -/
theorem startSimulation_out_of_range_witness :
    parseInt ({ page0 with durationInput := { value := "400" } } : Page).durationInput.value
      = fin (400 : ℤ)
    ∧ (startSimulation "12:00:00" { page0 with durationInput := { value := "400" } }).fetches = []
    ∧ (startSimulation "12:00:00" { page0 with durationInput := { value := "400" } }).eventLog
        = [logEntry "12:00:00" [Frag.str "Duración inválida (1-300 segundos)"] "error"]
    ∧ (startSimulation "12:00:00" { page0 with durationInput := { value := "400" } }).sources = []
    ∧ (startSimulation "12:00:00"
        { page0 with durationInput := { value := "400" } }).startBtn.disabled = false := by
  have hp : parseInt ({ page0 with durationInput := { value := "400" } } : Page).durationInput.value
      = fin (400 : ℤ) := by
    simpa using parseInt_400
  have h := startSimulation_out_of_range "12:00:00"
    { page0 with durationInput := { value := "400" } } 400 hp (Or.inr (by decide))
  exact ⟨hp, h.2.1, h.2.2.2.1, h.2.2.2.2.2.1, congrArg Button.disabled h.2.2.2.2.2.2.2⟩

/-- What `startSimulation` does when the duration read is an integer from 1
to 300. -/
theorem startSimulation_eq_valid (ts : String) (p : Page) (d : ℤ)
    (hparse : parseInt p.durationInput.value = fin d) (h1 : 1 ≤ d) (h300 : d ≤ 300) :
    startSimulation ts p
      = fetch { url := "/api/simulate", method := "POST", duration := fin d }
          (addLog ts
            [Frag.str "Iniciando simulación de ", Frag.num (fin d), Frag.str " segundos..."]
            "info" { p with startBtn := { disabled := true } }) := by
  have hguard : (lt (fin d) (fin 1) || gt (fin d) (fin 300)) = false := by
    have a : ¬ ((d : ℚ) < 1) := by
      have : (1 : ℚ) ≤ d := by exact_mod_cast h1
      linarith
    have b : ¬ ((300 : ℚ) < d) := by
      have : (d : ℚ) ≤ 300 := by exact_mod_cast h300
      linarith
    simp [gt, lt, a, b]
  unfold startSimulation
  simp only [hparse, hguard]
  rfl

/-- C8. When the text of the duration field parses to an integer from 1 to
300, `startSimulation` first disables the start button, then appends one log
entry of severity info, then issues one request, a POST to `/api/simulate`
whose body carries that duration; nothing else is requested. -/
theorem startSimulation_in_range (ts : String) (p : Page) (d : ℤ)
    (hparse : parseInt p.durationInput.value = fin d) (h1 : 1 ≤ d) (h300 : d ≤ 300) :
    startSimulation ts p
      = fetch { url := "/api/simulate", method := "POST", duration := fin d }
          (addLog ts
            [Frag.str "Iniciando simulación de ", Frag.num (fin d), Frag.str " segundos..."]
            "info" { p with startBtn := { disabled := true } })
    ∧ (addLog ts
          [Frag.str "Iniciando simulación de ", Frag.num (fin d), Frag.str " segundos..."]
          "info" { p with startBtn := { disabled := true } }).startBtn.disabled = true
    ∧ (addLog ts
          [Frag.str "Iniciando simulación de ", Frag.num (fin d), Frag.str " segundos..."]
          "info" { p with startBtn := { disabled := true } }).fetches = p.fetches
    ∧ (startSimulation ts p).startBtn.disabled = true
    ∧ (startSimulation ts p).fetches
        = p.fetches ++ [{ url := "/api/simulate", method := "POST", duration := fin d }]
    ∧ (startSimulation ts p).awaiting = p.awaiting + 1
    ∧ (startSimulation ts p).eventLog
        = logEntry ts
            [Frag.str "Iniciando simulación de ", Frag.num (fin d), Frag.str " segundos..."]
            "info" :: p.eventLog.take 49
    ∧ (logEntry ts
          [Frag.str "Iniciando simulación de ", Frag.num (fin d), Frag.str " segundos..."]
          "info").className = "log-entry log-info" := by
  have heq := startSimulation_eq_valid ts p d hparse h1 h300
  refine ⟨heq, rfl, rfl, ?_, ?_, ?_, ?_, rfl⟩ <;> rw [heq]
  · rfl
  · rfl
  · rfl
  · exact addLog_eventLog _ _ _ _

/-- Example for C8: the duration field holds 15. -/
theorem startSimulation_in_range_witness :
    parseInt ({ page0 with durationInput := { value := "15" } } : Page).durationInput.value
      = fin (15 : ℤ)
    ∧ (startSimulation "12:00:00"
        { page0 with durationInput := { value := "15" } }).startBtn.disabled = true
    ∧ (startSimulation "12:00:00" { page0 with durationInput := { value := "15" } }).fetches
        = [{ url := "/api/simulate", method := "POST", duration := fin (15 : ℤ) }] := by
  have hp : parseInt ({ page0 with durationInput := { value := "15" } } : Page).durationInput.value
      = fin (15 : ℤ) := by
    simpa using parseInt_15
  have h := startSimulation_in_range "12:00:00"
    { page0 with durationInput := { value := "15" } } 15 hp (by decide) (by decide)
  exact ⟨hp, h.2.2.2.1, h.2.2.2.2.1⟩

/-- C3, the failing input. With an empty duration field `parseInt` yields
`NaN`, both comparisons of the range check are false, and `startSimulation`
goes on as for a valid duration: it disables the start button, logs an info
entry and issues the request, with `NaN` as the duration. -/
theorem startSimulation_empty_input (ts : String) (p : Page) :
    parseInt "" = nan
    ∧ (startSimulation ts { p with durationInput := { value := "" } }).fetches
        = p.fetches ++ [{ url := "/api/simulate", method := "POST", duration := nan }]
    ∧ (startSimulation ts { p with durationInput := { value := "" } }).startBtn.disabled = true
    ∧ (startSimulation ts { p with durationInput := { value := "" } }).eventLog
        = logEntry ts
            [Frag.str "Iniciando simulación de ", Frag.num nan, Frag.str " segundos..."]
            "info" :: p.eventLog.take 49 := by
  have hp : parseInt "" = nan := by decide
  have heq : startSimulation ts { p with durationInput := { value := "" } }
      = fetch { url := "/api/simulate", method := "POST", duration := nan }
          (addLog ts
            [Frag.str "Iniciando simulación de ", Frag.num nan, Frag.str " segundos..."]
            "info" { p with durationInput := { value := "" }, startBtn := { disabled := true } }) := by
    unfold startSimulation
    simp only [hp]
    rfl
  refine ⟨hp, ?_, ?_, ?_⟩ <;> rw [heq]
  · rfl
  · rfl
  · exact addLog_eventLog _ _ _ _


/-! ## The stream subscription -/

theorem closeAt_getElem? (i j : ℕ) (l : List EventSource) :
    (closeAt i l)[j]? =
      if j = i then (l[j]?).map (fun s => { s with closed := true }) else l[j]? := by
  induction l generalizing i j with
  | nil => cases i <;> simp [closeAt]
  | cons s t ih =>
    cases i with
    | zero =>
      cases j with
      | zero => simp [closeAt]
      | succ j => simp [closeAt]
    | succ i =>
      cases j with
      | zero => simp [closeAt]
      | succ j => simpa [closeAt] using ih i j

theorem closeAt_length (i : ℕ) (l : List EventSource) : (closeAt i l).length = l.length := by
  induction l generalizing i with
  | nil => cases i <;> rfl
  | cons s t ih =>
    cases i with
    | zero => rfl
    | succ i => simp [closeAt, ih]

/-- The page after `onmessage`, when the snapshot ends the run. -/
theorem onmessage_terminal_eq (data : Snapshot) (t0 t1 t2 : String) (p : Page)
    (hr : data.running = false) (htp : gt data.stats.total_packets (fin 0) = true) :
    onmessage data t0 t1 t2 p =
      { updateUI data p with
        progressFill := [Frag.str "100%"]
        progressText := [Frag.str "100%"]
        startBtn := { disabled := false }
        sources := (closeEventSource p).sources
        eventLog :=
          ((if gt data.stats.attacks_detected (fin 0) then
              [logEntry t2
                [Frag.str "🚫 ", Frag.num data.stats.blocked_hosts, Frag.str " hosts bloqueados"]
                "warning",
               logEntry t1
                [Frag.str "⚠️ Se detectaron ", Frag.num data.stats.attacks_detected,
                  Frag.str " ataques"]
                "warning"]
            else [])
            ++ logEntry t0 [Frag.str "Simulación completada"] "success" :: p.eventLog).take 50 } := by
  have hes : (updateUI data p).eventSource = p.eventSource := by rw [updateUI_eq]
  have hso : (updateUI data p).sources = p.sources := by rw [updateUI_eq]
  have hlog : (updateUI data p).eventLog = p.eventLog := by rw [updateUI_eq]
  unfold onmessage
  simp only [hr, htp, Bool.not_false, Bool.and_self, if_true]
  cases ha : gt data.stats.attacks_detected (fin 0) <;> cases hp : p.eventSource <;>
    simp [addLog, closeEventSource, evict_eq_take, hes, hso, hlog, hp,
      List.take_take]

/-- The page after `onmessage`, when the snapshot does not end the run. -/
theorem onmessage_running_eq (data : Snapshot) (t0 t1 t2 : String) (p : Page)
    (h : (!data.running && gt data.stats.total_packets (fin 0)) = false) :
    onmessage data t0 t1 t2 p = updateUI data p := by
  unfold onmessage
  simp only [h]
  rfl


/-- C4. For a snapshot delivered while the held `EventSource` is open, the
message handler closes it exactly when `running` is false and `total_packets`
is above zero.  In that case the progress display is set to 100%, the start
button is enabled, and a success entry is logged (followed by two warning
entries when attacks were detected).  In every other case, and so for
`running` false with `total_packets` zero, the handler only renders the
snapshot: the `EventSource` stays open and the start button is untouched. -/
theorem onmessage_closes_iff_terminal (data : Snapshot) (t0 t1 t2 : String) (p : Page)
    (i : ℕ) (src : EventSource)
    (hheld : p.eventSource = some i) (hsrc : p.sources[i]? = some src)
    (hopen : src.closed = false) :
    (isOpen (onmessage data t0 t1 t2 p) i = false
      ↔ (data.running = false ∧ gt data.stats.total_packets (fin 0) = true))
    ∧ (data.running = false → gt data.stats.total_packets (fin 0) = true →
        (onmessage data t0 t1 t2 p).sources[i]? = some { src with closed := true }
        ∧ (onmessage data t0 t1 t2 p).progressFill = [Frag.str "100%"]
        ∧ (onmessage data t0 t1 t2 p).progressText = [Frag.str "100%"]
        ∧ (onmessage data t0 t1 t2 p).startBtn.disabled = false
        ∧ (logEntry t0 [Frag.str "Simulación completada"] "success").className
            = "log-entry log-success"
        ∧ (onmessage data t0 t1 t2 p).eventLog[
              if gt data.stats.attacks_detected (fin 0) then 2 else 0]?
            = some (logEntry t0 [Frag.str "Simulación completada"] "success"))
    ∧ (¬ (data.running = false ∧ gt data.stats.total_packets (fin 0) = true) →
        onmessage data t0 t1 t2 p = updateUI data p
        ∧ (onmessage data t0 t1 t2 p).sources = p.sources
        ∧ isOpen (onmessage data t0 t1 t2 p) i = true
        ∧ (onmessage data t0 t1 t2 p).startBtn = p.startBtn
        ∧ (onmessage data t0 t1 t2 p).eventLog = p.eventLog)
    ∧ (data.running = false → data.stats.total_packets = fin 0 →
        onmessage data t0 t1 t2 p = updateUI data p
        ∧ isOpen (onmessage data t0 t1 t2 p) i = true
        ∧ (onmessage data t0 t1 t2 p).startBtn = p.startBtn) := by
  have hopen0 : isOpen p i = true := by simp [isOpen, hsrc, hopen]
  have hterm : data.running = false → gt data.stats.total_packets (fin 0) = true →
      (onmessage data t0 t1 t2 p).sources[i]? = some { src with closed := true } := by
    intro hr htp
    rw [onmessage_terminal_eq data t0 t1 t2 p hr htp]
    simp [closeEventSource, hheld, closeAt_getElem?, hsrc]
  have hnot : ¬ (data.running = false ∧ gt data.stats.total_packets (fin 0) = true) →
      onmessage data t0 t1 t2 p = updateUI data p
        ∧ (onmessage data t0 t1 t2 p).sources = p.sources
        ∧ isOpen (onmessage data t0 t1 t2 p) i = true
        ∧ (onmessage data t0 t1 t2 p).startBtn = p.startBtn
        ∧ (onmessage data t0 t1 t2 p).eventLog = p.eventLog := by
    intro hc
    have hfalse : (!data.running && gt data.stats.total_packets (fin 0)) = false := by
      cases hr : data.running <;> cases htp : gt data.stats.total_packets (fin 0) <;>
        simp_all
    have heq := onmessage_running_eq data t0 t1 t2 p hfalse
    have hso : (updateUI data p).sources = p.sources := by rw [updateUI_eq]
    refine ⟨heq, ?_, ?_, ?_, ?_⟩
    · rw [heq, hso]
    · have : isOpen (updateUI data p) i = isOpen p i := by simp [isOpen, hso]
      rw [heq, this, hopen0]
    · rw [heq, updateUI_eq]
    · rw [heq, updateUI_eq]
  refine ⟨⟨?_, ?_⟩, ?_, hnot, ?_⟩
  · intro hclosed
    by_contra hc
    have := (hnot hc).2.2.1
    rw [hclosed] at this
    exact Bool.noConfusion this
  · rintro ⟨hr, htp⟩
    simp [isOpen, hterm hr htp]
  · intro hr htp
    refine ⟨hterm hr htp, ?_, ?_, ?_, rfl, ?_⟩
    · rw [onmessage_terminal_eq data t0 t1 t2 p hr htp]
    · rw [onmessage_terminal_eq data t0 t1 t2 p hr htp]
    · rw [onmessage_terminal_eq data t0 t1 t2 p hr htp]
    · rw [onmessage_terminal_eq data t0 t1 t2 p hr htp]
      cases ha : gt data.stats.attacks_detected (fin 0) <;> simp
  · intro hr htp
    have hc : ¬ (data.running = false ∧ gt data.stats.total_packets (fin 0) = true) := by
      rintro ⟨_, h⟩
      rw [htp] at h
      simp [gt, lt] at h
    exact ⟨(hnot hc).1, (hnot hc).2.2.1, (hnot hc).2.2.2.1⟩


/-- Example for C4: a final snapshot and an idle snapshot delivered while streaming. -/
theorem onmessage_closes_iff_terminal_witness :
    pageStreaming.eventSource = some 0
    ∧ pageStreaming.sources[0]? = some { url := "/api/stream", closed := false }
    ∧ (snap false 500 2 3).running = false
    ∧ gt (snap false 500 2 3).stats.total_packets (fin 0) = true
    ∧ (onmessage (snap false 500 2 3) "a" "b" "c" pageStreaming).sources[0]?
        = some { url := "/api/stream", closed := true }
    ∧ (onmessage (snap false 500 2 3) "a" "b" "c" pageStreaming).progressText
        = [Frag.str "100%"]
    ∧ (onmessage (snap false 500 2 3) "a" "b" "c" pageStreaming).startBtn.disabled = false
    ∧ isOpen (onmessage (snap false 0 0 0) "a" "b" "c" pageStreaming) 0 = true :=
  ⟨rfl, rfl, rfl, by decide,
    ((onmessage_closes_iff_terminal (snap false 500 2 3) "a" "b" "c" pageStreaming 0
      { url := "/api/stream", closed := false } rfl rfl rfl).2.1 rfl (by decide)).1,
    ((onmessage_closes_iff_terminal (snap false 500 2 3) "a" "b" "c" pageStreaming 0
      { url := "/api/stream", closed := false } rfl rfl rfl).2.1 rfl (by decide)).2.2.1,
    ((onmessage_closes_iff_terminal (snap false 500 2 3) "a" "b" "c" pageStreaming 0
      { url := "/api/stream", closed := false } rfl rfl rfl).2.1 rfl (by decide)).2.2.2.1,
    ((onmessage_closes_iff_terminal (snap false 0 0 0) "a" "b" "c" pageStreaming 0
      { url := "/api/stream", closed := false } rfl rfl rfl).2.2.2 rfl rfl).2.1⟩

/-- Example for C7: 29 packets into a run of 10 seconds. -/
theorem progress_estimate_capped_witness :
    (snap true 29 0 0).running = true
    ∧ gt (snap true 29 0 0).duration (fin 0) = true
    ∧ isDouble (snap true 29 0 0).duration = true
    ∧ (snap true 29 0 0).stats.total_packets = fin 29
    ∧ (0 : ℚ) ≤ 29
    ∧ ∃ (e : ℚ) (k : ℤ),
        (updateUI (snap true 29 0 0) page0).progressFill = [Frag.num (fin e), Frag.str "%"]
        ∧ (updateUI (snap true 29 0 0) page0).progressText = [Frag.num (fin k), Frag.str "%"]
        ∧ 0 ≤ k ∧ k ≤ 95 := by
  have hdd : isDouble (snap true 29 0 0).duration = true := by
    have := toDouble_intCast 10 (by norm_num)
    simpa [snap, isDouble] using this
  obtain ⟨_, _, e, k, _, hf, ht, _, _, hk0, hk95, _⟩ :=
    progress_estimate_capped (snap true 29 0 0) page0 29 rfl (by decide) hdd rfl (by norm_num)
  exact ⟨rfl, by decide, hdd, rfl, by norm_num, e, k, hf, ht, hk0, hk95⟩

/-! ## At most one open subscription -/

theorem closeEventSource_eventSource (p : Page) :
    (closeEventSource p).eventSource = p.eventSource := by
  unfold closeEventSource
  split <;> rfl

/-- Once the held object is closed, every object is: all the others were
closed already. -/
theorem closeEventSource_all_closed (p : Page)
    (hinv : ∀ (j : ℕ) (s : EventSource), p.sources[j]? = some s → s.closed = false → p.eventSource = some j) :
    ∀ (j : ℕ) (s : EventSource), (closeEventSource p).sources[j]? = some s → s.closed = true := by
  intro j s hs
  unfold closeEventSource at hs
  cases hes : p.eventSource with
  | none =>
    simp only [hes] at hs
    cases hc : s.closed with
    | true => rfl
    | false =>
      have := hinv j s hs hc
      rw [hes] at this
      cases this
  | some i =>
    simp only [hes, closeAt_getElem?] at hs
    by_cases hji : j = i
    · rw [if_pos hji] at hs
      cases hl : p.sources[j]? with
      | none => simp [hl] at hs
      | some s0 =>
        simp only [hl, Option.map_some', Option.some.injEq] at hs
        rw [← hs]
    · rw [if_neg hji] at hs
      cases hc : s.closed with
      | true => rfl
      | false =>
        have := hinv j s hs hc
        rw [hes] at this
        exact absurd (Option.some.inj this).symm hji

theorem closeEventSource_inv (p : Page)
    (hinv : ∀ (j : ℕ) (s : EventSource), p.sources[j]? = some s → s.closed = false → p.eventSource = some j) :
    ∀ (j : ℕ) (s : EventSource), (closeEventSource p).sources[j]? = some s → s.closed = false →
      (closeEventSource p).eventSource = some j := by
  intro j s hs hc
  have := closeEventSource_all_closed p hinv j s hs
  rw [hc] at this
  exact Bool.noConfusion this

theorem startEventStream_eq (p : Page) :
    startEventStream p =
      { closeEventSource p with
        eventSource := some (closeEventSource p).sources.length
        sources := (closeEventSource p).sources ++ [{ url := "/api/stream", closed := false }] } :=
  rfl

theorem closeEventSource_length (p : Page) :
    (closeEventSource p).sources.length = p.sources.length := by
  unfold closeEventSource
  split
  · exact closeAt_length _ _
  · rfl

theorem startEventStream_inv (p : Page)
    (hinv : ∀ (j : ℕ) (s : EventSource), p.sources[j]? = some s → s.closed = false → p.eventSource = some j) :
    ∀ (j : ℕ) (s : EventSource), (startEventStream p).sources[j]? = some s → s.closed = false →
      (startEventStream p).eventSource = some j := by
  intro j s hs hc
  rw [startEventStream_eq] at hs ⊢
  simp only at hs ⊢
  by_cases hj : j < (closeEventSource p).sources.length
  · rw [List.getElem?_append_left hj] at hs
    have := closeEventSource_all_closed p hinv j s hs
    rw [hc] at this
    exact Bool.noConfusion this
  · by_cases hj2 : j = (closeEventSource p).sources.length
    · rw [hj2]
    · have hlen : ((closeEventSource p).sources
          ++ [({ url := "/api/stream", closed := false } : EventSource)]).length ≤ j := by
        simp only [List.length_append, List.length_singleton]
        omega
      rw [List.getElem?_eq_none hlen] at hs
      cases hs

/-- Every handler keeps the property that an object which is not closed is
the held one. -/
theorem fire_inv (p : Page) (e : Event)
    (hinv : ∀ (j : ℕ) (s : EventSource), p.sources[j]? = some s → s.closed = false → p.eventSource = some j) :
    ∀ (j : ℕ) (s : EventSource), (fire p e).sources[j]? = some s → s.closed = false →
      (fire p e).eventSource = some j := by
  cases e with
  | input value => exact hinv
  | click ts =>
    have h : (startSimulation ts p).sources = p.sources
        ∧ (startSimulation ts p).eventSource = p.eventSource := by
      unfold startSimulation
      simp only
      split <;> exact ⟨rfl, rfl⟩
    intro j s hs hc
    rw [show fire p (Event.click ts) = startSimulation ts p from rfl] at hs ⊢
    rw [h.1] at hs
    rw [h.2]
    exact hinv j s hs hc
  | enterKey ts =>
    have h : (startSimulation ts p).sources = p.sources
        ∧ (startSimulation ts p).eventSource = p.eventSource := by
      unfold startSimulation
      simp only
      split <;> exact ⟨rfl, rfl⟩
    intro j s hs hc
    rw [show fire p (Event.enterKey ts) = startSimulation ts p from rfl] at hs ⊢
    rw [h.1] at hs
    rw [h.2]
    exact hinv j s hs hc
  | startOutcome outcome ts =>
    cases outcome with
    | response status message =>
      by_cases hst : status = "success"
      · have heq : fire p (Event.startOutcome (StartOutcome.response status message) ts)
            = startEventStream
                (addLog ts [Frag.str message] "success" { p with awaiting := p.awaiting - 1 }) := by
          simp [fire, startResponse, hst]
        rw [heq]
        exact startEventStream_inv _ hinv
      · have heq : fire p (Event.startOutcome (StartOutcome.response status message) ts)
            = { addLog ts [Frag.str message] "error" { p with awaiting := p.awaiting - 1 }
                with startBtn := { disabled := false } } := by
          simp [fire, startResponse, hst]
        rw [heq]
        exact hinv
    | failure msg => exact hinv
  | message i data t0 t1 t2 =>
    have hes : (updateUI data p).eventSource = p.eventSource := by rw [updateUI_eq]
    have hso : (updateUI data p).sources = p.sources := by rw [updateUI_eq]
    show ∀ (j : ℕ) (s : EventSource), (onmessage data t0 t1 t2 p).sources[j]? = some s → s.closed = false →
      (onmessage data t0 t1 t2 p).eventSource = some j
    by_cases hc : (!data.running && gt data.stats.total_packets (fin 0)) = true
    · have hr : data.running = false := by
        cases h : data.running <;> simp_all
      have htp : gt data.stats.total_packets (fin 0) = true := by
        cases h : gt data.stats.total_packets (fin 0) <;> simp_all
      rw [onmessage_terminal_eq data t0 t1 t2 p hr htp]
      simp only [hes]
      have := closeEventSource_inv p hinv
      rwa [closeEventSource_eventSource] at this
    · rw [onmessage_running_eq data t0 t1 t2 p (by simpa using hc), hes, hso]
      exact hinv
  | error i =>
    have := closeEventSource_inv p hinv
    exact this

theorem reachable_inv (p : Page) (h : Reachable p) :
    ∀ (j : ℕ) (s : EventSource), p.sources[j]? = some s → s.closed = false → p.eventSource = some j := by
  induction h with
  | init p hes hso haw =>
    intro j s hs
    rw [hso] at hs
    simp at hs
  | step p e _ _ ih => exact fire_inv p e ih

theorem filter_open_length_le_one (l : List EventSource) (es : Option ℕ)
    (hinv : ∀ (j : ℕ) (s : EventSource), l[j]? = some s → s.closed = false → es = some j) :
    (l.filter (fun s => !s.closed)).length ≤ 1 := by
  induction l generalizing es with
  | nil => simp
  | cons a t ih =>
    cases hc : a.closed with
    | true =>
      have htail : ∀ (j : ℕ) (s : EventSource), t[j]? = some s → s.closed = false →
          es.bind (fun i => if i = 0 then none else some (i - 1)) = some j := by
        intro j s hs hcl
        have := hinv (j + 1) s (by simpa using hs) hcl
        simp [this]
      simpa [List.filter, hc] using ih _ htail
    | false =>
      have h0 : es = some 0 := hinv 0 a (by simp) hc
      have hall : ∀ s ∈ t, s.closed = true := by
        intro s hs
        obtain ⟨j, hj⟩ := List.mem_iff_getElem?.1 hs
        cases hcl : s.closed with
        | true => rfl
        | false =>
          have := hinv (j + 1) s (by simpa using hj) hcl
          rw [h0] at this
          cases this
      have hnil : t.filter (fun s => !s.closed) = [] := by
        rw [List.filter_eq_nil_iff]
        intro s hs
        simp [hall s hs]
      simp [List.filter, hc, hnil]


/-- C6. In every reachable state at most one `EventSource` is open, and an
`EventSource` other than the held one is closed.  From such a state
`startEventStream` closes every `EventSource` made so far, the held one
included, and holds the new one, which is then the only open one. -/
theorem single_open_subscription (p : Page) (h : Reachable p) :
    openCount p ≤ 1
    ∧ (∀ (j : ℕ) (s : EventSource),
        p.sources[j]? = some s → p.eventSource ≠ some j → s.closed = true)
    ∧ (∀ (j : ℕ) (s : EventSource),
        (startEventStream p).sources[j]? = some s → j < p.sources.length → s.closed = true)
    ∧ (startEventStream p).eventSource = some p.sources.length
    ∧ (startEventStream p).sources[p.sources.length]?
        = some { url := "/api/stream", closed := false }
    ∧ openCount (startEventStream p) = 1 := by
  have hinv := reachable_inv p h
  have hlen := closeEventSource_length p
  have hall := closeEventSource_all_closed p hinv
  refine ⟨filter_open_length_le_one _ _ hinv, ?_, ?_, ?_, ?_, ?_⟩
  · intro j s hs hne
    cases hc : s.closed with
    | true => rfl
    | false => exact absurd (hinv j s hs hc) hne
  · intro j s hs hj
    rw [startEventStream_eq] at hs
    simp only at hs
    rw [List.getElem?_append_left (by omega)] at hs
    exact hall j s hs
  · rw [startEventStream_eq, hlen]
  · rw [startEventStream_eq]
    simp only
    rw [← hlen]
    simp
  · have hnil : (closeEventSource p).sources.filter (fun s => !s.closed) = [] := by
      rw [List.filter_eq_nil_iff]
      intro s hs
      obtain ⟨j, hj⟩ := List.mem_iff_getElem?.1 hs
      simp [hall j s hj]
    rw [startEventStream_eq]
    simp [openCount, List.filter_append, hnil]

/-- Example for C6: a run is started and accepted, then a second one is started with the Enter key and accepted while the first is still streaming. -/
theorem single_open_subscription_witness :
    Reachable
      (fire (fire (fire (fire page0 (Event.click "12:00:00"))
        (Event.startOutcome (StartOutcome.response "success" "started") "12:00:01"))
        (Event.enterKey "12:00:05"))
        (Event.startOutcome (StartOutcome.response "success" "started") "12:00:06"))
    ∧ openCount
      (fire (fire (fire (fire page0 (Event.click "12:00:00"))
        (Event.startOutcome (StartOutcome.response "success" "started") "12:00:01"))
        (Event.enterKey "12:00:05"))
        (Event.startOutcome (StartOutcome.response "success" "started") "12:00:06")) ≤ 1 := by
  have hp0 : parseInt page0.durationInput.value = fin (15 : ℤ) := by
    simpa using parseInt_15
  have e1 : fire page0 (Event.click "12:00:00") = _ :=
    startSimulation_eq_valid "12:00:00" page0 15 hp0 (by decide) (by decide)
  have r0 : Reachable page0 := Reachable.init page0 rfl rfl rfl
  have r1 := Reachable.step page0 (Event.click "12:00:00") r0 rfl
  have r2 := Reachable.step _
    (Event.startOutcome (StartOutcome.response "success" "started") "12:00:01") r1
    (by rw [e1]; simp [enabled, fetch, addLog])
  have r3 := Reachable.step _ (Event.enterKey "12:00:05") r2 rfl
  have hp2 : parseInt
      (fire (fire page0 (Event.click "12:00:00"))
        (Event.startOutcome (StartOutcome.response "success" "started")
          "12:00:01")).durationInput.value = fin (15 : ℤ) := by
    rw [e1]
    exact hp0
  have e3 : fire (fire (fire page0 (Event.click "12:00:00"))
        (Event.startOutcome (StartOutcome.response "success" "started") "12:00:01"))
        (Event.enterKey "12:00:05") = _ :=
    startSimulation_eq_valid "12:00:05" _ 15 hp2 (by decide) (by decide)
  have r4 := Reachable.step _
    (Event.startOutcome (StartOutcome.response "success" "started") "12:00:06") r3
    (by rw [e3]; simp [enabled, fetch, addLog])
  exact ⟨r4, (single_open_subscription _ r4).1⟩

end SdnSimulador
